import Mathlib

/-!
Shallow embedding of the `ai_wargame_broker` core (src/main.rs): the
in-memory game store (`HashMap<String, GameTurn>` behind a mutex), the
role-based authorization attached by the `auth_basic` middleware, the
randomized id allocator of `game_generate`, and one pass of the `cleaner`
expiry sweep.  Time is modelled in whole seconds as `Nat`
(`SystemTime::elapsed` fails when the stamp lies in the future, and the
sweep compares only `Duration::as_secs`).
-/

namespace Broker

/-- `GameCoord` from main.rs: a board cell `(row, col)` (`u8` fields;
no arithmetic is performed on them, so `Nat` suffices). -/
structure GameCoord where
  row : Nat
  col : Nat
  deriving DecidableEq, Repr

/-- `GameTurn` from main.rs: the stored record for one game.  `turn` is the
caller-supplied `u16` sequence number; `updated` is the server-side
`Option<SystemTime>` stamp (seconds), never read from the wire. -/
structure GameTurn where
  «from» : GameCoord
  «to» : GameCoord
  turn : Nat
  updated : Option Nat
  deriving DecidableEq, Repr

/-- `ConfigUserRole` from main.rs, with derived `PartialOrd`, so the order
is declaration order: `Guest < User < Admin`. -/
inductive ConfigUserRole where
  | Guest
  | User
  | Admin
  deriving DecidableEq, Repr

/-- Declaration-order rank underlying the derived `PartialOrd`. -/
def ConfigUserRole.rank : ConfigUserRole → Nat
  | .Guest => 0
  | .User => 1
  | .Admin => 2

/-- The `<` comparison on roles used by every handler gate. -/
def roleLt (a b : ConfigUserRole) : Bool :=
  a.rank < b.rank

/-- `ConfigUser` from main.rs: one configured `(name, role, password)`. -/
structure ConfigUser where
  name : String
  role : ConfigUserRole
  password : String
  deriving DecidableEq, Repr

/-- The game store contents: `HashMap<String, GameTurn>` as an association
list holding at most one entry per key. -/
abbrev GameData := List (String × GameTurn)

/-- `HashMap::get`: first (unique) entry for the key. -/
def lookupGame (gameid : String) : GameData → Option GameTurn
  | [] => none
  | (k, v) :: rest => if k = gameid then some v else lookupGame gameid rest

/-- Remove the entry for a key (helper for `insertGame`). -/
def eraseGame (gameid : String) : GameData → GameData
  | [] => []
  | (k, v) :: rest =>
    if k = gameid then eraseGame gameid rest
    else (k, v) :: eraseGame gameid rest

/-- `HashMap::insert`: replace any entry for the key with the new value. -/
def insertGame (gameid : String) (v : GameTurn) (store : GameData) : GameData :=
  (gameid, v) :: eraseGame gameid store

/-- `GameReply` from main.rs (the serialized JSON body). -/
structure GameReply where
  success : Bool
  error : Option String
  data : Option GameTurn
  deriving DecidableEq, Repr

/-- `GameReply::default()`. -/
def GameReply.default : GameReply :=
  { success := false, error := none, data := none }

/-- HTTP `StatusCode::OK`. -/
def statusOK : Nat := 200

/-- HTTP `StatusCode::UNAUTHORIZED`. -/
def statusUnauthorized : Nat := 401

/-- The `auth_basic` middleware from main.rs, as the role it attaches to the
request: with a presented `(username, password)` it looks for the first
configured user with that name; on a password match it attaches that user's
role, in every other case it attaches `Guest` and still forwards the
request. -/
def auth_basic (auth : Option (String × String)) (users : List ConfigUser) :
    ConfigUserRole :=
  match auth with
  | some (uname, pwd) =>
    match users.find? (fun u => u.name = uname) with
    | some user => if user.password = pwd then user.role else .Guest
    | none => .Guest
  | none => .Guest

/-- `game_post` from main.rs: below `User` it replies 401 with
`invalid client auth` and touches nothing; otherwise it stamps
`payload.updated` with the current time and inserts the stamped payload,
echoing it back in the reply. -/
def game_post (role : ConfigUserRole) (gameid : String) (payload : GameTurn)
    (now : Nat) (store : GameData) : Nat × GameReply × GameData :=
  if roleLt role .User then
    (statusUnauthorized,
     { GameReply.default with success := false, error := some "invalid client auth" },
     store)
  else
    let stamped : GameTurn := { payload with updated := some now }
    (statusOK,
     { GameReply.default with success := true, data := some stamped },
     insertGame gameid stamped store)

/-- `game_get` from main.rs: below `User` it replies 401; otherwise it
replies 200 with `success = true` and `data` set to the store lookup
(present or absent). -/
def game_get (role : ConfigUserRole) (gameid : String) (store : GameData) :
    Nat × GameReply :=
  if roleLt role .User then
    (statusUnauthorized,
     { GameReply.default with success := false, error := some "invalid client auth" })
  else
    (statusOK,
     { GameReply.default with success := true, data := lookupGame gameid store })

/-- The id-generation loop of `game_generate`: draw `nanoid!(8)` tokens
(modelled as the stream `gen`) until one is absent from the store.  The
source loop is unbounded; `fuel` bounds the recursion and `none` stands for
the (unreachable in the source) case of every drawn token colliding. -/
def genLoop (gen : Nat → String) (store : GameData) : Nat → Nat → Option String
  | 0, _ => none
  | fuel + 1, i =>
    let gameid := gen i
    if (lookupGame gameid store).isNone then some gameid
    else genLoop gen store fuel (i + 1)

/-- `game_generate` from main.rs: below `User` it replies 401 via
`authenticate()`; otherwise it loops drawing random ids until one is not a
key of the store and returns it with status 200.  The store is only read,
never written. -/
def game_generate (role : ConfigUserRole) (gen : Nat → String) (fuel : Nat)
    (store : GameData) : Nat × Option String × GameData :=
  if roleLt role .User then
    (statusUnauthorized, none, store)
  else
    match genLoop gen store fuel 0 with
    | some gameid => (statusOK, some gameid, store)
    | none => (statusOK, none, store)

/-- `admin_clear` from main.rs: below `Admin` it replies 401 via
`authenticate()`; otherwise it empties the store. -/
def admin_clear (role : ConfigUserRole) (store : GameData) : Nat × GameData :=
  if roleLt role .Admin then
    (statusUnauthorized, store)
  else
    (statusOK, [])

/-- `SystemTime::elapsed` in whole seconds: fails (`Err`) when the stamp
lies in the future of `now`. -/
def elapsedSecs (stamp now : Nat) : Option Nat :=
  if stamp ≤ now then some (now - stamp) else none

/-- The `retain` predicate of one `cleaner` pass: a record is kept unless
its `updated` stamp is set, its elapsed age is computable, and that age
exceeds `expires_secs`. -/
def keepRecord (expires_secs now : Nat) (t : GameTurn) : Bool :=
  match t.updated with
  | some stamp =>
    match elapsedSecs stamp now with
    | some age => !(expires_secs < age)
    | none => true
  | none => true

/-- One pass of the `cleaner` loop body from main.rs:
`dict.retain(|gameid, turndata| ...)`. -/
def cleanerPass (expires_secs now : Nat) (store : GameData) : GameData :=
  store.filter (fun p => keepRecord expires_secs now p.2)

/-- One store-touching request, as dispatched by the router in main.rs. -/
inductive Op where
  | post (gameid : String) (payload : GameTurn) (now : Nat) (role : ConfigUserRole)
  | clear (role : ConfigUserRole)
  | generate (gen : Nat → String) (fuel : Nat) (role : ConfigUserRole)

/-- The store mutation performed by one request. -/
def applyOp (store : GameData) : Op → GameData
  | .post gameid payload now role => (game_post role gameid payload now store).2.2
  | .clear role => (admin_clear role store).2
  | .generate gen fuel role => (game_generate role gen fuel store).2.2

/-- The store after a sequence of requests against the initially empty
store (the `Default` of `SharedData`). -/
def runOps (ops : List Op) : GameData :=
  ops.foldl applyOp []

theorem lookupGame_insert_self (k : String) (v : GameTurn) (s : GameData) :
    lookupGame k (insertGame k v s) = some v := by
  simp [insertGame, lookupGame]

theorem lookupGame_erase_ne (k k' : String) (s : GameData) (h : k' ≠ k) :
    lookupGame k' (eraseGame k s) = lookupGame k' s := by
  induction s with
  | nil => rfl
  | cons hd tl ih =>
    rcases hd with ⟨a, b⟩
    by_cases hk : a = k
    · have hne : a ≠ k' := fun e => h (e ▸ hk)
      rw [eraseGame, if_pos hk, lookupGame, if_neg hne]
      exact ih
    · rw [eraseGame, if_neg hk, lookupGame, lookupGame]
      by_cases hk' : a = k'
      · rw [if_pos hk', if_pos hk']
      · rw [if_neg hk', if_neg hk']
        exact ih

theorem lookupGame_insert_ne (k k' : String) (v : GameTurn) (s : GameData)
    (h : k' ≠ k) :
    lookupGame k' (insertGame k v s) = lookupGame k' s := by
  rw [insertGame, lookupGame, if_neg (fun e => h e.symm)]
  exact lookupGame_erase_ne k k' s h

theorem mem_cleanerPass (expires_secs now : Nat) (p : String × GameTurn)
    (s : GameData) :
    p ∈ cleanerPass expires_secs now s ↔
      p ∈ s ∧ keepRecord expires_secs now p.2 = true := by
  simp [cleanerPass, List.mem_filter]

theorem genLoop_fresh (gen : Nat → String) (store : GameData) (fuel i : Nat)
    (gameid : String) (h : genLoop gen store fuel i = some gameid) :
    lookupGame gameid store = none := by
  induction fuel generalizing i with
  | zero => exact absurd h (by simp [genLoop])
  | succ n ih =>
    rw [genLoop] at h
    by_cases hfree : (lookupGame (gen i) store).isNone
    · rw [if_pos hfree] at h
      cases h
      exact Option.isNone_iff_eq_none.mp hfree
    · rw [if_neg hfree] at h
      exact ih (i + 1) h

theorem lookupGame_foldl_none (ops : List Op) (gameid : String) (s : GameData)
    (hs : lookupGame gameid s = none)
    (hnever : ∀ payload now role, Op.post gameid payload now role ∉ ops) :
    lookupGame gameid (ops.foldl applyOp s) = none := by
  induction ops generalizing s with
  | nil => exact hs
  | cons op rest ih =>
    rw [List.foldl_cons]
    refine ih (applyOp s op) ?_
      (fun p n r hm => hnever p n r (List.mem_cons_of_mem _ hm))
    cases op with
    | post gid p n r =>
      have hne : gameid ≠ gid := by
        intro e
        exact hnever p n r (by rw [e]; exact List.mem_cons_self _ _)
      by_cases hr : roleLt r .User = true
      · simpa [applyOp, game_post, hr] using hs
      · have : lookupGame gameid (insertGame gid { p with updated := some n } s) =
            lookupGame gameid s := lookupGame_insert_ne gid gameid _ s hne
        simpa [applyOp, game_post, hr, this] using hs
    | clear r =>
      by_cases hr : roleLt r .Admin = true
      · simpa [applyOp, admin_clear, hr] using hs
      · simp [applyOp, admin_clear, hr, lookupGame]
    | generate gen fuel r =>
      by_cases hr : roleLt r .User = true
      · simpa [applyOp, game_generate, hr] using hs
      · cases hgen : genLoop gen s fuel 0 <;>
          simpa [applyOp, game_generate, hr, hgen] using hs

/-- C1: an authorized `game_post` (level at least `User`) replies 200,
stores the caller's payload verbatim in its from/to/turn fields with
`updated` stamped to the server's current time, echoes exactly that stamped
record back in the reply, and leaves every other id's entry unchanged. -/
theorem c1_game_post_stamps (role : ConfigUserRole) (gameid : String)
    (payload : GameTurn) (now : Nat) (store : GameData)
    (h : roleLt role .User = false) :
    (game_post role gameid payload now store).1 = statusOK ∧
    lookupGame gameid (game_post role gameid payload now store).2.2 =
      some { payload with updated := some now } ∧
    (game_post role gameid payload now store).2.1.data =
      some { payload with updated := some now } ∧
    (∀ k, k ≠ gameid →
      lookupGame k (game_post role gameid payload now store).2.2 =
        lookupGame k store) := by
  have hcond : ¬ (roleLt role .User = true) := by simp [h]
  refine ⟨by simp [game_post, hcond], ?_, by simp [game_post, hcond], ?_⟩
  · rw [game_post, if_neg hcond]
    exact lookupGame_insert_self gameid _ store
  · intro k hk
    rw [game_post, if_neg hcond]
    exact lookupGame_insert_ne gameid k _ store hk

theorem c1_game_post_stamps_witness :
    (game_post .User "g1" ⟨⟨0, 0⟩, ⟨1, 1⟩, 7, none⟩ 5 []).1 = 200 ∧
    lookupGame "g1" (game_post .User "g1" ⟨⟨0, 0⟩, ⟨1, 1⟩, 7, none⟩ 5 []).2.2 =
      some ⟨⟨0, 0⟩, ⟨1, 1⟩, 7, some 5⟩ ∧
    (game_post .User "g1" ⟨⟨0, 0⟩, ⟨1, 1⟩, 7, none⟩ 5 []).2.1.data =
      some ⟨⟨0, 0⟩, ⟨1, 1⟩, 7, some 5⟩ ∧
    lookupGame "g2" (game_post .User "g1" ⟨⟨0, 0⟩, ⟨1, 1⟩, 7, none⟩ 5 []).2.2 =
      none := by
  have h := c1_game_post_stamps .User "g1" ⟨⟨0, 0⟩, ⟨1, 1⟩, 7, none⟩ 5 []
    (by decide)
  exact ⟨h.1, h.2.1, h.2.2.1, (h.2.2.2 "g2" (by decide)).trans rfl⟩

/-- C5: a `game_post` attempted below level `User` is rejected with 401,
`success = false` and the `invalid client auth` error, and the store is
returned completely unchanged. -/
theorem c5_game_post_unauthorized (role : ConfigUserRole) (gameid : String)
    (payload : GameTurn) (now : Nat) (store : GameData)
    (h : roleLt role .User = true) :
    (game_post role gameid payload now store).1 = statusUnauthorized ∧
    (game_post role gameid payload now store).2.1.success = false ∧
    (game_post role gameid payload now store).2.1.error =
      some "invalid client auth" ∧
    (game_post role gameid payload now store).2.2 = store := by
  simp [game_post, h, GameReply.default]

theorem c5_game_post_unauthorized_witness :
    (game_post .Guest "g1" ⟨⟨0, 0⟩, ⟨1, 1⟩, 7, none⟩ 5
        [("g0", ⟨⟨2, 2⟩, ⟨3, 3⟩, 4, some 1⟩)]).1 = 401 ∧
    (game_post .Guest "g1" ⟨⟨0, 0⟩, ⟨1, 1⟩, 7, none⟩ 5
        [("g0", ⟨⟨2, 2⟩, ⟨3, 3⟩, 4, some 1⟩)]).2.1.success = false ∧
    (game_post .Guest "g1" ⟨⟨0, 0⟩, ⟨1, 1⟩, 7, none⟩ 5
        [("g0", ⟨⟨2, 2⟩, ⟨3, 3⟩, 4, some 1⟩)]).2.1.error =
      some "invalid client auth" ∧
    (game_post .Guest "g1" ⟨⟨0, 0⟩, ⟨1, 1⟩, 7, none⟩ 5
        [("g0", ⟨⟨2, 2⟩, ⟨3, 3⟩, 4, some 1⟩)]).2.2 =
      [("g0", ⟨⟨2, 2⟩, ⟨3, 3⟩, 4, some 1⟩)] :=
  c5_game_post_unauthorized .Guest "g1" ⟨⟨0, 0⟩, ⟨1, 1⟩, 7, none⟩ 5
    [("g0", ⟨⟨2, 2⟩, ⟨3, 3⟩, 4, some 1⟩)] (by decide)

theorem keepRecord_true_iff (e n : Nat) (t : GameTurn) :
    keepRecord e n t = true ↔
      ¬ ∃ stamp, t.updated = some stamp ∧ stamp ≤ n ∧ e < n - stamp := by
  cases ht : t.updated with
  | none => simp [keepRecord, ht]
  | some stamp =>
    by_cases hs : stamp ≤ n
    · simp [keepRecord, ht, elapsedSecs, hs]
    · simp [keepRecord, ht, elapsedSecs, hs]

/-- C2: one cleaner pass retains exactly the records of the store that are
not strictly older than `expires_secs` relative to `now` (records with no
`updated` stamp, or a future stamp, count as retained); in particular with
a 60s maximum age and `now = 1000`, a record stamped 939 (61s old) is
removed, one stamped 941 (59s old) is retained, and an unstamped record is
retained. -/
theorem c2_cleaner_evicts_exactly (expires_secs now : Nat) (store : GameData)
    (k : String) (t : GameTurn) :
    ((k, t) ∈ cleanerPass expires_secs now store ↔
      (k, t) ∈ store ∧
        ¬ ∃ stamp, t.updated = some stamp ∧ stamp ≤ now ∧
            expires_secs < now - stamp) ∧
    cleanerPass 60 1000 [("old", ⟨⟨0, 0⟩, ⟨1, 1⟩, 2, some 939⟩)] = [] ∧
    cleanerPass 60 1000 [("fresh", ⟨⟨0, 0⟩, ⟨1, 1⟩, 2, some 941⟩)] =
      [("fresh", ⟨⟨0, 0⟩, ⟨1, 1⟩, 2, some 941⟩)] ∧
    cleanerPass 60 1000 [("unset", ⟨⟨0, 0⟩, ⟨1, 1⟩, 2, none⟩)] =
      [("unset", ⟨⟨0, 0⟩, ⟨1, 1⟩, 2, none⟩)] := by
  refine ⟨?_, by decide, by decide, by decide⟩
  rw [mem_cleanerPass, keepRecord_true_iff]

/-- C10: a record whose `updated` stamp lies strictly in the future of
`now` (so `SystemTime::elapsed` fails) survives every cleaner pass,
whatever the configured maximum age. -/
theorem c10_future_stamp_retained (expires_secs now : Nat) (store : GameData)
    (k : String) (t : GameTurn) (stamp : Nat)
    (hmem : (k, t) ∈ store) (hup : t.updated = some stamp)
    (hfut : now < stamp) :
    (k, t) ∈ cleanerPass expires_secs now store := by
  rw [mem_cleanerPass]
  refine ⟨hmem, ?_⟩
  simp [keepRecord, hup, elapsedSecs, Nat.not_le.mpr hfut]

theorem c10_future_stamp_retained_witness :
    ("g", (⟨⟨0, 0⟩, ⟨1, 1⟩, 2, some 100⟩ : GameTurn)) ∈
      cleanerPass 60 50 [("g", ⟨⟨0, 0⟩, ⟨1, 1⟩, 2, some 100⟩)] :=
  c10_future_stamp_retained 60 50 [("g", ⟨⟨0, 0⟩, ⟨1, 1⟩, 2, some 100⟩)]
    "g" ⟨⟨0, 0⟩, ⟨1, 1⟩, 2, some 100⟩ 100 (by decide) rfl (by decide)

/-- C8: an `admin_clear` at level `Admin` (or any level not below `Admin`)
replies 200 and empties the store in one step: afterwards every id,
including any written before, looks up to absence. -/
theorem c8_admin_clear_empties (role : ConfigUserRole) (store : GameData)
    (h : roleLt role .Admin = false) :
    (admin_clear role store).1 = statusOK ∧
    ∀ gameid, lookupGame gameid (admin_clear role store).2 = none := by
  have hcond : ¬ (roleLt role .Admin = true) := by simp [h]
  refine ⟨by simp [admin_clear, hcond], ?_⟩
  intro gameid
  rw [admin_clear, if_neg hcond]
  rfl

theorem c8_admin_clear_empties_witness :
    (admin_clear .Admin [("g1", ⟨⟨0, 0⟩, ⟨1, 1⟩, 2, some 3⟩)]).1 = 200 ∧
    lookupGame "g1"
      (admin_clear .Admin [("g1", ⟨⟨0, 0⟩, ⟨1, 1⟩, 2, some 3⟩)]).2 = none := by
  have h := c8_admin_clear_empties .Admin
    [("g1", ⟨⟨0, 0⟩, ⟨1, 1⟩, 2, some 3⟩)] (by decide)
  exact ⟨h.1, h.2 "g1"⟩

/-- C9: a `game_get` at level at least `User` on an id to which no `post`
ever happened (across any sequence of posts, clears and id generations from
the empty initial store) replies 200 with `success = true` and `data`
absent — absence, not a default record, and not an error. -/
theorem c9_get_never_written_absent (ops : List Op) (gameid : String)
    (role : ConfigUserRole)
    (hrole : roleLt role .User = false)
    (hnever : ∀ payload now r, Op.post gameid payload now r ∉ ops) :
    (game_get role gameid (runOps ops)).1 = statusOK ∧
    (game_get role gameid (runOps ops)).2.success = true ∧
    (game_get role gameid (runOps ops)).2.data = none := by
  have hnone : lookupGame gameid (runOps ops) = none :=
    lookupGame_foldl_none ops gameid [] rfl hnever
  have hcond : ¬ (roleLt role .User = true) := by simp [hrole]
  simp [game_get, hcond, hnone, GameReply.default]

theorem c9_get_never_written_absent_witness :
    (game_get .User "g2"
        (runOps [.post "g1" ⟨⟨0, 0⟩, ⟨1, 1⟩, 2, none⟩ 3 .User])).1 = 200 ∧
    (game_get .User "g2"
        (runOps [.post "g1" ⟨⟨0, 0⟩, ⟨1, 1⟩, 2, none⟩ 3 .User])).2.success =
      true ∧
    (game_get .User "g2"
        (runOps [.post "g1" ⟨⟨0, 0⟩, ⟨1, 1⟩, 2, none⟩ 3 .User])).2.data =
      none := by
  refine c9_get_never_written_absent
    [.post "g1" ⟨⟨0, 0⟩, ⟨1, 1⟩, 2, none⟩ 3 .User] "g2" .User (by decide) ?_
  intro payload now r hmem
  rw [List.mem_singleton] at hmem
  injection hmem with h1 h2 h3 h4
  exact absurd h1 (by decide)

/-- C3: role resolution is total and never errors: no credential, an
unmatched username, or a wrong password all resolve to `Guest`; a matched
username with the matching password resolves to that user's configured
role. -/
theorem c3_auth_basic_resolution (users : List ConfigUser) :
    auth_basic none users = .Guest ∧
    (∀ uname pwd, users.find? (fun u => u.name = uname) = none →
      auth_basic (some (uname, pwd)) users = .Guest) ∧
    (∀ uname pwd user, users.find? (fun u => u.name = uname) = some user →
      user.password ≠ pwd →
      auth_basic (some (uname, pwd)) users = .Guest) ∧
    (∀ uname pwd user, users.find? (fun u => u.name = uname) = some user →
      user.password = pwd →
      auth_basic (some (uname, pwd)) users = user.role) := by
  refine ⟨rfl, ?_, ?_, ?_⟩
  · intro uname pwd hf
    simp [auth_basic, hf]
  · intro uname pwd user hf hne
    simp [auth_basic, hf, hne]
  · intro uname pwd user hf he
    simp [auth_basic, hf, he]

theorem c3_auth_basic_resolution_witness :
    auth_basic (some ("admin", "ag3nt")) [⟨"admin", .Admin, "ag3nt"⟩] =
      .Admin ∧
    auth_basic (some ("admin", "wrong")) [⟨"admin", .Admin, "ag3nt"⟩] =
      .Guest ∧
    auth_basic (some ("nobody", "x")) [⟨"admin", .Admin, "ag3nt"⟩] = .Guest ∧
    auth_basic none [⟨"admin", .Admin, "ag3nt"⟩] = .Guest := by
  have h := c3_auth_basic_resolution [⟨"admin", .Admin, "ag3nt"⟩]
  exact ⟨h.2.2.2 "admin" "ag3nt" ⟨"admin", .Admin, "ag3nt"⟩ (by decide) rfl,
    h.2.2.1 "admin" "wrong" ⟨"admin", .Admin, "ag3nt"⟩ (by decide) (by decide),
    h.2.1 "nobody" "x" (by decide), h.1⟩

/-- C4: the access levels are strictly ordered `Guest < User < Admin`, and
every handler gate passes exactly the levels whose rank is at least the
required rank: Admin passes everything User passes (game create, game get,
game post), and Guest is rejected by all three. -/
theorem c4_role_order_and_gates :
    (roleLt .Guest .User = true ∧ roleLt .User .Admin = true ∧
      roleLt .Guest .Admin = true) ∧
    (∀ role req : ConfigUserRole,
      roleLt role req = false ↔ req.rank ≤ role.rank) ∧
    (∀ gameid payload now store,
      (game_post .Admin gameid payload now store).1 = statusOK ∧
      (game_post .User gameid payload now store).1 = statusOK ∧
      (game_post .Guest gameid payload now store).1 = statusUnauthorized) ∧
    (∀ gameid store,
      (game_get .Admin gameid store).1 = statusOK ∧
      (game_get .User gameid store).1 = statusOK ∧
      (game_get .Guest gameid store).1 = statusUnauthorized) ∧
    (∀ gen fuel store,
      (game_generate .Admin gen fuel store).1 = statusOK ∧
      (game_generate .User gen fuel store).1 = statusOK ∧
      (game_generate .Guest gen fuel store).1 = statusUnauthorized) := by
  refine ⟨by decide, ?_, ?_, ?_, ?_⟩
  · intro role req
    simp [roleLt, Nat.not_lt]
  · intro gameid payload now store
    exact ⟨by simp [game_post, roleLt, ConfigUserRole.rank],
      by simp [game_post, roleLt, ConfigUserRole.rank],
      by simp [game_post, roleLt, ConfigUserRole.rank]⟩
  · intro gameid store
    exact ⟨by simp [game_get, roleLt, ConfigUserRole.rank],
      by simp [game_get, roleLt, ConfigUserRole.rank],
      by simp [game_get, roleLt, ConfigUserRole.rank]⟩
  · intro gen fuel store
    refine ⟨?_, ?_, by simp [game_generate, roleLt, ConfigUserRole.rank]⟩ <;>
      cases hgen : genLoop gen store fuel 0 <;>
        simp [game_generate, roleLt, ConfigUserRole.rank, hgen]

/-- C6: whenever `game_generate` returns an id, that id was not a key of
the store at the moment of the membership check inside the generation
loop. -/
theorem c6_generate_fresh (role : ConfigUserRole) (gen : Nat → String)
    (fuel : Nat) (store : GameData) (gameid : String)
    (h : (game_generate role gen fuel store).2.1 = some gameid) :
    lookupGame gameid store = none := by
  unfold game_generate at h
  by_cases hr : roleLt role .User = true
  · rw [if_pos hr] at h
    exact absurd h (by simp)
  · rw [if_neg hr] at h
    cases hgen : genLoop gen store fuel 0 with
    | none =>
      rw [hgen] at h
      exact absurd h (by simp)
    | some gid =>
      rw [hgen] at h
      simp only [Option.some.injEq] at h
      exact h ▸ genLoop_fresh gen store fuel 0 gid hgen

theorem c6_generate_fresh_witness :
    (game_generate .User (fun _ => "abc12345") 1 []).2.1 =
      some "abc12345" ∧
    lookupGame "abc12345" ([] : GameData) = none :=
  ⟨rfl, c6_generate_fresh .User (fun _ => "abc12345") 1 [] "abc12345" rfl⟩

/-- C7 as stated is false: `game_generate` never writes to the store, so no
reservation record exists after a create, and two back-to-back calls whose
random stream repeats a token return the same id twice. -/
theorem c7_no_reservation_counterexample :
    (game_generate .User (fun _ => "dup") 1 []).2.1 = some "dup" ∧
    (game_generate .User (fun _ => "dup") 1 []).2.2 = [] ∧
    (game_generate .User (fun _ => "dup") 1
        (game_generate .User (fun _ => "dup") 1 []).2.2).2.1 = some "dup" :=
  ⟨rfl, rfl, rfl⟩

/-- C7 amended: creating a game via the allocator reserves nothing — the
store is returned unchanged by `game_generate` at every level, so only the
randomness of the token stream, not any reservation, separates the ids of
successive calls. -/
theorem c7_generate_leaves_store (role : ConfigUserRole) (gen : Nat → String)
    (fuel : Nat) (store : GameData) :
    (game_generate role gen fuel store).2.2 = store := by
  unfold game_generate
  by_cases hr : roleLt role .User = true
  · rw [if_pos hr]
  · rw [if_neg hr]
    cases hgen : genLoop gen store fuel 0 <;> simp [hgen]

end Broker
